import Mathlib

/-!
Shallow embedding of the core ray tracer of `A-weird-ray-tracer`
(`src/vector3.hpp` and `src/main.cc`), over the real numbers as the
idealisation of the C++ `float` arithmetic.

Conventions of the embedding:
* `Vector3<float>` becomes `Vec3`, a record of three reals; the componentwise
  operators of `vector3.hpp` become the corresponding Lean operations.
* `std::sqrt` becomes `Real.sqrt`.
* `unique_ptr<Hit>` / `nullptr` become `Option Hit`.
* The scene's `vector<unique_ptr<Object>>` becomes `List Sphere` (the sphere is
  the only `Object` variant in the source).
* The default constructor `Vector3() {}` (vector3.hpp line 25) initialises
  nothing, so the local `Color surface_color;` in `trace` (main.cc line 225)
  holds an indeterminate value when `max_depth <= 0`.  The embedding makes this
  explicit: `trace` takes an extra argument `junk : Vec3` standing for whatever
  indeterminate value that uninitialised variable holds.
-/

namespace RayTracer

noncomputable section

/-- The C++ `Vector3<float>` (vector3.hpp): three ordered components. -/
structure Vec3 where
  x : ℝ
  y : ℝ
  z : ℝ

namespace Vec3

/-- The scalar constructor `explicit Vector3(const T &scalar)` (vector3.hpp line 27). -/
def splat (s : ℝ) : Vec3 := ⟨s, s, s⟩

/-- Componentwise `operator+` (vector3.hpp lines 100–104). -/
instance : Add Vec3 := ⟨fun a b => ⟨a.x + b.x, a.y + b.y, a.z + b.z⟩⟩

/-- Componentwise `operator-` (vector3.hpp lines 106–110). -/
instance : Sub Vec3 := ⟨fun a b => ⟨a.x - b.x, a.y - b.y, a.z - b.z⟩⟩

/-- Componentwise vector-vector `operator*` (vector3.hpp lines 112–117). -/
instance : Mul Vec3 := ⟨fun a b => ⟨a.x * b.x, a.y * b.y, a.z * b.z⟩⟩

/-- Unary `operator-` (vector3.hpp lines 147–150). -/
instance : Neg Vec3 := ⟨fun a => ⟨-a.x, -a.y, -a.z⟩⟩

/-- Vector-scalar `operator*` (vector3.hpp lines 126–131). -/
def smul (v : Vec3) (s : ℝ) : Vec3 := ⟨v.x * s, v.y * s, v.z * s⟩

/-- Vector-scalar `operator/` (vector3.hpp lines 140–145). -/
def divs (v : Vec3) (s : ℝ) : Vec3 := ⟨v.x / s, v.y / s, v.z / s⟩

/-- Member `dot` (vector3.hpp lines 165–169). -/
def dot (a b : Vec3) : ℝ := a.x * b.x + a.y * b.y + a.z * b.z

/-- Member `sqr_length` (vector3.hpp lines 171–174). -/
def sqr_length (v : Vec3) : ℝ := v.dot v

/-- Member `length` (vector3.hpp lines 176–179). -/
def length (v : Vec3) : ℝ := Real.sqrt v.sqr_length

/-- Member `normalized` (vector3.hpp lines 181–184): divides by the length
unconditionally, with no epsilon guard. -/
def normalized (v : Vec3) : Vec3 := v.divs v.length

@[simp] theorem add_def (a b : Vec3) :
    a + b = ⟨a.x + b.x, a.y + b.y, a.z + b.z⟩ := rfl

@[simp] theorem sub_def (a b : Vec3) :
    a - b = ⟨a.x - b.x, a.y - b.y, a.z - b.z⟩ := rfl

@[simp] theorem mul_def (a b : Vec3) :
    a * b = ⟨a.x * b.x, a.y * b.y, a.z * b.z⟩ := rfl

@[simp] theorem neg_def (a : Vec3) : -a = ⟨-a.x, -a.y, -a.z⟩ := rfl

end Vec3

/-- Free function `sqr_distance` (vector3.hpp lines 209–213). -/
def sqr_distance (a b : Vec3) : ℝ := (a - b).sqr_length

/-- Free function `distance` (vector3.hpp lines 215–219). -/
def dist3 (a b : Vec3) : ℝ := Real.sqrt (sqr_distance a b)

/-- The value `std::numeric_limits<float>::epsilon()`: machine epsilon of the `float`
instantiation used by the tracer. -/
def machineEps : ℝ := 1 / 2 ^ 23

/-- Free function `normalize` (vector3.hpp lines 222–230): returns the argument
unchanged when its length is below machine epsilon, otherwise divides by the
length. -/
def normalize (v : Vec3) : Vec3 :=
  if v.length < machineEps then v else v.divs v.length

/-- The C++ `struct Ray` (main.cc lines 20–24). -/
structure Ray where
  org : Vec3
  dir : Vec3

/-- The C++ `struct Sphere : Object` (main.cc lines 34–51): the only `Object` variant;
carries the base-class fields and the radius. -/
structure Sphere where
  pos : Vec3
  radius : ℝ
  surface_color : Vec3
  emission_color : Vec3

/-- The C++ `struct Hit` (main.cc lines 27–32); the back-pointer `const Object *obj`
becomes a copy of the (immutable) sphere. -/
structure Hit where
  pos : Vec3
  norm : Vec3
  obj : Sphere

/-- The member `Sphere::intersect` (main.cc lines 53–92). -/
def Sphere.intersect (s : Sphere) (ray : Ray) : Option Hit :=
  let l := s.pos - ray.org
  let l_cos := l.dot ray.dir
  if l_cos ≤ 0 then
    none
  else
    let l_sin_sqr := l.sqr_length - l_cos * l_cos
    if l_sin_sqr > s.radius * s.radius then
      none
    else
      let d := l_cos - Real.sqrt (s.radius * s.radius - l_sin_sqr)
      let hitPos := ray.org + ray.dir.smul d
      some ⟨hitPos, (hitPos - s.pos).normalized, s⟩

/-- One iteration of the nearest-hit loop in `trace` (main.cc lines 204–216):
the accumulator holds the current `first_hit` together with `min_distance`
(`none` standing for the initial `infinity`); a candidate hit replaces the
current best exactly when its distance is strictly smaller. -/
def hitStep (ray : Ray) (acc : Option (Hit × ℝ)) (obj : Sphere) :
    Option (Hit × ℝ) :=
  match obj.intersect ray with
  | none => acc
  | some hit =>
    let d := dist3 ray.org hit.pos
    match acc with
    | none => some (hit, d)
    | some (_, m) => if d < m then some (hit, d) else acc

/-- The nearest-hit resolution of `trace` (main.cc lines 200–216): fold the
loop body over the scene's objects in insertion order and keep the hit. -/
def firstHit (scene : List Sphere) (ray : Ray) : Option Hit :=
  (scene.foldl (hitStep ray) none).map Prod.fst

/-- The normal-orientation correction of `trace` (main.cc lines 220–223): the
normal is negated exactly when its dot product with the ray direction is
positive. -/
def orient (ray : Ray) (h : Hit) : Hit :=
  if ray.dir.dot h.norm > 0 then { h with norm := -h.norm } else h

/-- The reflection ray of `trace` (main.cc line 246):
`{first_hit->pos, ray.dir - first_hit->norm * 2 * ray.dir.dot(first_hit->norm)}`. -/
def reflectRay (ray : Ray) (h : Hit) : Ray :=
  ⟨h.pos, ray.dir - (h.norm.smul 2).smul (ray.dir.dot h.norm)⟩

/-- The function `trace` (main.cc lines 198–258), indexed by the number of still-allowed
reflection bounces as a natural number (`n` plays the role of `max_depth` with
`n = 0` exactly when `max_depth <= 0`; see `trace` and `trace_unfold` for the
`int`-typed front end).  `junk` is the indeterminate value of the
uninitialised local `Color surface_color;` (main.cc line 225, constructed by
`Vector3() {}`, vector3.hpp line 25), which is the value returned together
with the emission color when the depth budget is exhausted at a hit. -/
def traceN (scene : List Sphere) (junk : Vec3) : ℕ → Ray → Vec3
  | 0, ray =>
    match firstHit scene ray with
    | none => Vec3.splat 0
    | some h0 =>
      let h := orient ray h0
      junk + h.obj.emission_color
  | n + 1, ray =>
    match firstHit scene ray with
    | none => Vec3.splat 0
    | some h0 =>
      let h := orient ray h0
      let reflection := traceN scene junk n (reflectRay ray h)
      (reflection * h.obj.surface_color + Vec3.splat 0.3) + h.obj.emission_color

/-- The entry point `trace(ray, scene, max_depth)` (main.cc lines 198–258) with the C++ `int`
depth argument; `Int.toNat` collapses every non-positive budget to the base
case, exactly as `if (max_depth > 0)` does.  `trace_unfold` below re-states
the body one-to-one with the C++ control flow. -/
def trace (ray : Ray) (scene : List Sphere) (max_depth : ℤ) (junk : Vec3) :
    Vec3 :=
  traceN scene junk max_depth.toNat ray

/-- Fidelity of `trace` to the source: unfolding one step gives literally the
C++ body of main.cc lines 198–258 — resolve the nearest hit; on a miss return
`Color(0)`; on a hit orient the normal, then if `max_depth > 0` recurse on the
reflection ray with `max_depth - 1` and combine with the surface color and the
`0.3` bias, otherwise leave `surface_color` at its indeterminate value `junk`;
finally add the emission color. -/
theorem trace_unfold (ray : Ray) (scene : List Sphere) (d : ℤ) (junk : Vec3) :
    trace ray scene d junk =
      match firstHit scene ray with
      | none => Vec3.splat 0
      | some h0 =>
        let h := orient ray h0
        let surface_color :=
          if d > 0 then
            trace (reflectRay ray h) scene (d - 1) junk * h.obj.surface_color
              + Vec3.splat 0.3
          else junk
        surface_color + h.obj.emission_color := by
  rcases le_or_lt d 0 with hd | hd
  · have h0 : d.toNat = 0 := Int.toNat_of_nonpos hd
    simp only [trace, h0, traceN, not_lt.mpr hd]
    cases firstHit scene ray with
    | none => simp
    | some h1 => simp [if_neg (not_lt.mpr hd)]
  · obtain ⟨n, hn⟩ : ∃ n : ℕ, d.toNat = n + 1 := by
      refine ⟨d.toNat - 1, ?_⟩
      omega
    have h1 : (d - 1).toNat = n := by omega
    simp only [trace, hn, traceN, h1]
    cases firstHit scene ray with
    | none => simp
    | some h2 => simp [if_pos hd]

/-- The tracer instrumented with an explicit call-stack allowance: `traceGas g`
runs the body of main.cc lines 198–258 but refuses (`none`) once `g` nested
activations are exhausted.  `traceGas` recurses exactly where the C++ code
does — only under `if (max_depth > 0)`, passing `max_depth - 1` — so
`traceGas g ray d = some c` certifies that the C++ recursion starting at
budget `d` returns `c` using at most `g` stacked activations. -/
def traceGas (scene : List Sphere) (junk : Vec3) : ℕ → Ray → ℤ → Option Vec3
  | 0, _, _ => none
  | g + 1, ray, d =>
    match firstHit scene ray with
    | none => some (Vec3.splat 0)
    | some h0 =>
      let h := orient ray h0
      if 0 < d then
        match traceGas scene junk g (reflectRay ray h) (d - 1) with
        | none => none
        | some reflection =>
          some ((reflection * h.obj.surface_color + Vec3.splat 0.3)
            + h.obj.emission_color)
      else
        some (junk + h.obj.emission_color)

/-- Folding the nearest-hit loop over objects that all miss leaves the
accumulator unchanged. -/
theorem foldl_hitStep_all_miss (ray : Ray) :
    ∀ (scene : List Sphere) (acc : Option (Hit × ℝ)),
      (∀ s ∈ scene, s.intersect ray = none) →
      scene.foldl (hitStep ray) acc = acc := by
  intro scene
  induction scene with
  | nil => intro acc _; rfl
  | cons s rest ih =>
    intro acc hmiss
    have hs : s.intersect ray = none := hmiss s (List.mem_cons_self s rest)
    have hrest : ∀ s' ∈ rest, s'.intersect ray = none := fun s' hs' =>
      hmiss s' (List.mem_cons_of_mem s hs')
    simp only [List.foldl_cons]
    rw [show hitStep ray acc s = acc by simp [hitStep, hs]]
    exact ih acc hrest

/-- If every object misses, the nearest-hit resolution returns nothing. -/
theorem firstHit_eq_none (ray : Ray) (scene : List Sphere)
    (hmiss : ∀ s ∈ scene, s.intersect ray = none) :
    firstHit scene ray = none := by
  simp [firstHit, foldl_hitStep_all_miss ray scene none hmiss]

/-- A ray whose origin-to-center vector has non-positive dot product with the
ray direction takes the first early-out of `Sphere::intersect`
(main.cc lines 73–76). -/
theorem Sphere.intersect_eq_none_of_lcos_nonpos (s : Sphere) (ray : Ray)
    (h : (s.pos - ray.org).dot ray.dir ≤ 0) : s.intersect ray = none := by
  simp only [Sphere.intersect]
  exact if_pos h

/-! ### Concrete fixtures

The sphere of the spec's concrete scenario (position `(0,0,-20)`, radius 4),
a black variant of it, a second sphere hit at the identical distance, an
exactly tangent configuration, and a sphere behind the ray. -/

/-- Ray from the origin along `-z` (the spec's concrete scenario ray). -/
def axisRay : Ray := ⟨Vec3.splat 0, ⟨0, 0, -1⟩⟩

/-- The spec's concrete-scenario sphere. -/
def sphereA : Sphere := ⟨⟨0, 0, -20⟩, 4, ⟨1, 0.32, 0.36⟩, Vec3.splat 0⟩

/-- A non-emissive sphere with black surface color, same geometry. -/
def blackSphere : Sphere := ⟨⟨0, 0, -20⟩, 4, Vec3.splat 0, Vec3.splat 0⟩

/-- A second sphere that `axisRay` hits at the identical distance 16. -/
def sphereB : Sphere := ⟨⟨0, 0, -21⟩, 5, ⟨0.9, 0.9, 0.9⟩, Vec3.splat 0⟩

/-- A sphere exactly tangent to `axisRay`: `l_sin_sqr = 1 = radius^2`. -/
def tangentSphere : Sphere := ⟨⟨0, 1, -5⟩, 1, Vec3.splat 0, Vec3.splat 0⟩

/-- A sphere centered behind the origin of `axisRay`. -/
def behindSphere : Sphere := ⟨⟨0, 0, 1⟩, 1, Vec3.splat 0, Vec3.splat 0⟩

/-- The hit `Sphere::intersect` produces for `sphereA` on `axisRay`. -/
def hitA : Hit := ⟨⟨0, 0, -16⟩, ⟨0, 0, 1⟩, sphereA⟩

/-- The hit `Sphere::intersect` produces for `blackSphere` on `axisRay`. -/
def hitBlack : Hit := ⟨⟨0, 0, -16⟩, ⟨0, 0, 1⟩, blackSphere⟩

theorem sqrt_sixteen : Real.sqrt 16 = 4 := by
  rw [show (16 : ℝ) = 4 ^ 2 by norm_num,
    Real.sqrt_sq (by norm_num : (0 : ℝ) ≤ 4)]

theorem sqrt_twentyfive : Real.sqrt 25 = 5 := by
  rw [show (25 : ℝ) = 5 ^ 2 by norm_num,
    Real.sqrt_sq (by norm_num : (0 : ℝ) ≤ 5)]

theorem sqrt_twofiftysix : Real.sqrt 256 = 16 := by
  rw [show (256 : ℝ) = 16 ^ 2 by norm_num,
    Real.sqrt_sq (by norm_num : (0 : ℝ) ≤ 16)]

theorem sphereA_intersect : sphereA.intersect axisRay = some hitA := by
  simp only [Sphere.intersect, sphereA, axisRay, hitA, Vec3.splat,
    Vec3.sub_def, Vec3.dot, Vec3.sqr_length, Vec3.smul, Vec3.add_def,
    Vec3.normalized, Vec3.divs, Vec3.length]
  norm_num [sqrt_sixteen]

theorem blackSphere_intersect : blackSphere.intersect axisRay = some hitBlack := by
  simp only [Sphere.intersect, blackSphere, axisRay, hitBlack, Vec3.splat,
    Vec3.sub_def, Vec3.dot, Vec3.sqr_length, Vec3.smul, Vec3.add_def,
    Vec3.normalized, Vec3.divs, Vec3.length]
  norm_num [sqrt_sixteen]

theorem sphereB_intersect :
    sphereB.intersect axisRay = some ⟨⟨0, 0, -16⟩, ⟨0, 0, 1⟩, sphereB⟩ := by
  simp only [Sphere.intersect, sphereB, axisRay, Vec3.splat,
    Vec3.sub_def, Vec3.dot, Vec3.sqr_length, Vec3.smul, Vec3.add_def,
    Vec3.normalized, Vec3.divs, Vec3.length]
  norm_num [sqrt_twentyfive]

theorem firstHit_sphereA : firstHit [sphereA] axisRay = some hitA := by
  simp [firstHit, hitStep, sphereA_intersect]

theorem firstHit_blackSphere : firstHit [blackSphere] axisRay = some hitBlack := by
  simp [firstHit, hitStep, blackSphere_intersect]

theorem orient_hitA : orient axisRay hitA = hitA := by
  simp only [orient, axisRay, hitA, Vec3.dot]
  norm_num

theorem orient_hitBlack : orient axisRay hitBlack = hitBlack := by
  simp only [orient, axisRay, hitBlack, Vec3.dot]
  norm_num

/-- The mirror ray leaving `hitBlack` points along `+z` from `(0,0,-16)`. -/
theorem reflectRay_hitBlack :
    reflectRay axisRay hitBlack = ⟨⟨0, 0, -16⟩, ⟨0, 0, 1⟩⟩ := by
  simp only [reflectRay, axisRay, hitBlack, Vec3.splat, Vec3.smul, Vec3.dot,
    Vec3.sub_def]
  norm_num

/-- The reflection ray from the black sphere's hit escapes every object of the
one-sphere scene: the sphere center is behind it along the ray. -/
theorem blackSphere_escape :
    blackSphere.intersect ⟨⟨0, 0, -16⟩, ⟨0, 0, 1⟩⟩ = none := by
  refine Sphere.intersect_eq_none_of_lcos_nonpos _ _ ?_
  simp only [blackSphere, Vec3.sub_def, Vec3.dot]
  norm_num

/-- Orientation correction never changes which object was hit. -/
theorem orient_obj (ray : Ray) (h : Hit) : (orient ray h).obj = h.obj := by
  unfold orient
  split <;> rfl

/-- Orientation correction never changes the hit position. -/
theorem orient_pos (ray : Ray) (h : Hit) : (orient ray h).pos = h.pos := by
  unfold orient
  split <;> rfl

/-- Depth budget 0 on the concrete-scenario sphere: the returned color is the
indeterminate value of the uninitialised `surface_color` plus the (zero)
emission, i.e. the junk value itself. -/
theorem trace_sphereA_zero (junk : Vec3) :
    trace axisRay [sphereA] 0 junk = junk := by
  rw [trace_unfold, firstHit_sphereA]
  simp only [orient_hitA]
  rw [if_neg (show ¬((0 : ℤ) > 0) by norm_num)]
  simp [hitA, sphereA, Vec3.splat]

/-- Depth budget 1 on the black sphere: the reflection ray escapes, so the
result is `(0,0,0) * (0,0,0) + (0.3,0.3,0.3) + (0,0,0) = (0.3,0.3,0.3)`,
independently of the junk value (the uninitialised variable is only read at a
hit with exhausted budget, which does not occur here). -/
theorem trace_blackSphere_one (junk : Vec3) :
    trace axisRay [blackSphere] 1 junk = Vec3.splat 0.3 := by
  have h2 : trace ⟨⟨0, 0, -16⟩, ⟨0, 0, 1⟩⟩ [blackSphere] (1 - 1 : ℤ) junk
      = Vec3.splat 0 := by
    rw [trace_unfold, firstHit_eq_none _ _ (by simp [blackSphere_escape])]
  rw [trace_unfold, firstHit_blackSphere]
  simp only [orient_hitBlack, reflectRay_hitBlack]
  rw [if_pos (show (1 : ℤ) > 0 by norm_num), h2]
  norm_num [hitBlack, blackSphere, Vec3.splat]

/-- C1: the claim says `trace(ray, scene, 0)` returns, at a hit, the object's
emission color plus a zero `surface_color`.  The code instead returns the
indeterminate value of the uninitialised local `Color surface_color;`
(main.cc line 225; `Vector3() {}`, vector3.hpp line 25, initialises nothing)
plus the emission color: on the concrete-scenario sphere, with the
indeterminate value being `(1,1,1)`, the result is `(1,1,1)`, not the claimed
`(0,0,0) + emission = (0,0,0)`. -/
theorem C1_depth_zero_uninitialised :
    trace axisRay [sphereA] 0 (Vec3.splat 1) = Vec3.splat 1
      ∧ trace axisRay [sphereA] 0 (Vec3.splat 1)
          ≠ Vec3.splat 0 + sphereA.emission_color := by
  refine ⟨trace_sphereA_zero _, ?_⟩
  rw [trace_sphereA_zero]
  simp only [sphereA, Vec3.splat, Vec3.add_def, ne_eq, Vec3.mk.injEq]
  norm_num

/-- C2: at a hit with strictly positive depth budget, the returned color is
the recursive trace of the mirror-reflection ray at budget `d - 1`,
componentwise-multiplied by the hit object's surface color, plus the flat
`(0.3,0.3,0.3)` bias, plus the object's emission color; in particular a
directly hit black non-emissive sphere whose reflection ray escapes yields
exactly `(0.3,0.3,0.3)` at budget 1. -/
theorem C2_reflection_combine :
    (∀ (ray : Ray) (scene : List Sphere) (d : ℤ) (junk : Vec3) (h0 : Hit),
        0 < d → firstHit scene ray = some h0 →
        trace ray scene d junk =
          trace (reflectRay ray (orient ray h0)) scene (d - 1) junk
              * h0.obj.surface_color
            + Vec3.splat 0.3 + h0.obj.emission_color)
    ∧ ∀ junk : Vec3, trace axisRay [blackSphere] 1 junk = Vec3.splat 0.3 := by
  constructor
  · intro ray scene d junk h0 hd hfh
    rw [trace_unfold, hfh]
    simp only [if_pos hd, orient_obj]
  · exact trace_blackSphere_one

/-- Witness for C2 at a concrete input: the general equation instantiated on
the concrete-scenario sphere at depth budget 2. -/
theorem C2_reflection_combine_witness :
    trace axisRay [sphereA] 2 (Vec3.splat 0) =
      trace (reflectRay axisRay (orient axisRay hitA)) [sphereA] (2 - 1)
          (Vec3.splat 0) * hitA.obj.surface_color
        + Vec3.splat 0.3 + hitA.obj.emission_color :=
  C2_reflection_combine.1 axisRay [sphereA] 2 (Vec3.splat 0) hitA
    (by norm_num) firstHit_sphereA

/-- Dot product with a negated vector negates the dot product. -/
theorem Vec3.dot_neg (a b : Vec3) : a.dot (-b) = -(a.dot b) := by
  simp only [Vec3.neg_def, Vec3.dot]
  ring

/-- C3: a ray whose origin-to-center vector has non-positive dot product with
the ray direction never intersects the sphere (`l_cos <= 0` early-out,
main.cc lines 73–76). -/
theorem C3_nonpositive_lcos_misses (s : Sphere) (ray : Ray)
    (h : (s.pos - ray.org).dot ray.dir ≤ 0) : s.intersect ray = none :=
  Sphere.intersect_eq_none_of_lcos_nonpos s ray h

/-- Witness for C3: the sphere centered behind the origin of `axisRay` has
`l_cos = -1 <= 0` and is reported as a miss. -/
theorem C3_nonpositive_lcos_misses_witness :
    (behindSphere.pos - axisRay.org).dot axisRay.dir ≤ 0
      ∧ behindSphere.intersect axisRay = none := by
  have h : (behindSphere.pos - axisRay.org).dot axisRay.dir ≤ 0 := by
    norm_num [behindSphere, axisRay, Vec3.splat, Vec3.dot]
  exact ⟨h, C3_nonpositive_lcos_misses behindSphere axisRay h⟩

/-- C4: an exactly tangent ray (`l_sin_sqr = radius^2`) with positive `l_cos`
produces a hit: the rejection test `l_sin_sqr > radius * radius`
(main.cc line 80) is strict, so the boundary is inclusive. -/
theorem C4_tangent_boundary_hits (s : Sphere) (ray : Ray)
    (hpos : 0 < (s.pos - ray.org).dot ray.dir)
    (htan : (s.pos - ray.org).sqr_length
        - (s.pos - ray.org).dot ray.dir * (s.pos - ray.org).dot ray.dir
      = s.radius * s.radius) :
    (s.intersect ray).isSome := by
  simp only [Sphere.intersect]
  rw [if_neg (not_le.mpr hpos),
    if_neg (show ¬((s.pos - ray.org).sqr_length
        - (s.pos - ray.org).dot ray.dir * (s.pos - ray.org).dot ray.dir
      > s.radius * s.radius) by rw [htan]; exact lt_irrefl _)]
  rfl

/-- Witness for C4: `tangentSphere` is exactly tangent to `axisRay`
(`l_cos = 5 > 0`, `l_sin_sqr = 26 - 25 = 1 = radius^2`) and is hit. -/
theorem C4_tangent_boundary_hits_witness :
    0 < (tangentSphere.pos - axisRay.org).dot axisRay.dir
      ∧ (tangentSphere.intersect axisRay).isSome := by
  have hpos : 0 < (tangentSphere.pos - axisRay.org).dot axisRay.dir := by
    norm_num [tangentSphere, axisRay, Vec3.splat, Vec3.dot]
  have htan : (tangentSphere.pos - axisRay.org).sqr_length
      - (tangentSphere.pos - axisRay.org).dot axisRay.dir
          * (tangentSphere.pos - axisRay.org).dot axisRay.dir
      = tangentSphere.radius * tangentSphere.radius := by
    norm_num [tangentSphere, axisRay, Vec3.splat, Vec3.dot, Vec3.sqr_length]
  exact ⟨hpos, C4_tangent_boundary_hits tangentSphere axisRay hpos htan⟩

/-- C6: after the orientation-correction step (main.cc lines 220–223) the
resolved hit's normal satisfies `dot(ray.dir, normal) <= 0`: the normal is
negated exactly when the dot product is positive, so it always faces against
the incoming ray. -/
theorem C6_normal_faces_incoming (ray : Ray) (scene : List Sphere) (h : Hit)
    (_hfh : firstHit scene ray = some h) :
    ray.dir.dot (orient ray h).norm ≤ 0 := by
  unfold orient
  split
  · next hpos =>
    show ray.dir.dot (-h.norm) ≤ 0
    rw [Vec3.dot_neg]
    linarith
  · next hneg =>
    exact not_lt.mp hneg

/-- Witness for C6: the concrete-scenario hit, resolved by `firstHit`, has its
oriented normal facing against the incoming ray. -/
theorem C6_normal_faces_incoming_witness :
    axisRay.dir.dot (orient axisRay hitA).norm ≤ 0 :=
  C6_normal_faces_incoming axisRay [sphereA] hitA firstHit_sphereA

/-- C7: whenever every object of the scene misses the ray — in particular for
the empty scene — `trace` returns exactly `Color(0,0,0)`, for every depth
budget. -/
theorem C7_all_miss_background (ray : Ray) (scene : List Sphere) (d : ℤ)
    (junk : Vec3) (hmiss : ∀ s ∈ scene, s.intersect ray = none) :
    trace ray scene d junk = Vec3.splat 0 := by
  rw [trace_unfold, firstHit_eq_none ray scene hmiss]

/-- Witness for C7: the empty scene at depth budget 5. -/
theorem C7_all_miss_background_witness :
    trace axisRay [] 5 (Vec3.splat 0) = Vec3.splat 0 :=
  C7_all_miss_background axisRay [] 5 (Vec3.splat 0) (by simp)

/-- C8: `trace` terminates within its depth budget: for every gas bound `g`
strictly larger than the (clamped) budget, the gas-instrumented tracer
completes without exhausting its `g` stacked activations and computes exactly
`trace` — the base case recurses nowhere and the recursive call happens only
under `0 < max_depth`, with budget `max_depth - 1`. -/
theorem C8_terminates_within_budget (g : ℕ) (d : ℤ) (ray : Ray)
    (scene : List Sphere) (junk : Vec3) (hg : d.toNat < g) :
    traceGas scene junk g ray d = some (trace ray scene d junk) := by
  induction g generalizing d ray with
  | zero => exact absurd hg (Nat.not_lt_zero _)
  | succ g ih =>
    rw [trace_unfold]
    simp only [traceGas]
    cases hfh : firstHit scene ray with
    | none => simp
    | some h0 =>
      simp only []
      by_cases hd : 0 < d
      · rw [if_pos hd, if_pos hd,
          ih (d - 1) (reflectRay ray (orient ray h0)) (by omega)]
      · rw [if_neg hd, if_neg hd]

/-- Witness for C8: budget 0 needs a single activation. -/
theorem C8_terminates_within_budget_witness :
    traceGas [] (Vec3.splat 0) 1 axisRay 0
      = some (trace axisRay [] 0 (Vec3.splat 0)) :=
  C8_terminates_within_budget 1 0 axisRay [] (Vec3.splat 0) (by simp)

/-- C9: the free function `normalize` (vector3.hpp lines 222–230) returns its
argument unchanged whenever the length is below machine epsilon, whereas the
member `normalized` (vector3.hpp lines 181–184) performs the division by the
length unconditionally, with no epsilon guard. -/
theorem C9_normalize_guard (v : Vec3) :
    (v.length < machineEps → normalize v = v)
      ∧ v.normalized = v.divs v.length := by
  refine ⟨fun h => ?_, rfl⟩
  rw [normalize, if_pos h]

/-- Witness for C9: the zero vector has length `0 <` machine epsilon and is
returned unchanged by `normalize`. -/
theorem C9_normalize_guard_witness :
    (Vec3.splat 0).length < machineEps
      ∧ normalize (Vec3.splat 0) = Vec3.splat 0 := by
  have hlen : (Vec3.splat 0).length < machineEps := by
    norm_num [Vec3.length, Vec3.sqr_length, Vec3.dot, Vec3.splat, machineEps]
  exact ⟨hlen, (C9_normalize_guard (Vec3.splat 0)).1 hlen⟩

/-- C10: a non-positive depth budget behaves exactly like budget 0: the
reflection branch requires `max_depth > 0`, so every `d <= 0` takes the same
path as `d = 0` and yields the same color. -/
theorem C10_nonpositive_budget_like_zero (ray : Ray) (scene : List Sphere)
    (d : ℤ) (junk : Vec3) (hd : d ≤ 0) :
    trace ray scene d junk = trace ray scene 0 junk := by
  unfold trace
  rw [Int.toNat_of_nonpos hd]
  rfl

/-- Witness for C10: depth budget `-3` on the concrete-scenario scene gives
the same color as budget 0. -/
theorem C10_nonpositive_budget_like_zero_witness :
    trace axisRay [sphereA] (-3) (Vec3.splat 1)
      = trace axisRay [sphereA] 0 (Vec3.splat 1) :=
  C10_nonpositive_budget_like_zero axisRay [sphereA] (-3) (Vec3.splat 1)
    (by norm_num)

/-- Nearest-hit loop invariant, starting from an existing best `(b, db)`:
either no candidate beat `db` (every hit in the remaining objects lies at
distance at least `db` and the accumulator survives), or the winner comes
from the remaining objects at some split point, beating `db`, beating every
earlier hit strictly (a strictly-less comparison is required to replace the
best) and no later hit beating it strictly. -/
theorem foldl_hitStep_from_some (ray : Ray) (l : List Sphere) :
    ∀ (b : Hit) (db : ℝ),
      (List.foldl (hitStep ray) (some (b, db)) l = some (b, db)
        ∧ ∀ s' ∈ l, ∀ h', s'.intersect ray = some h' →
            db ≤ dist3 ray.org h'.pos)
      ∨ (∃ pre s post h₀,
          l = pre ++ s :: post
          ∧ s.intersect ray = some h₀
          ∧ List.foldl (hitStep ray) (some (b, db)) l
              = some (h₀, dist3 ray.org h₀.pos)
          ∧ dist3 ray.org h₀.pos < db
          ∧ (∀ s' ∈ pre, ∀ h', s'.intersect ray = some h' →
              dist3 ray.org h₀.pos < dist3 ray.org h'.pos)
          ∧ (∀ s' ∈ post, ∀ h', s'.intersect ray = some h' →
              dist3 ray.org h₀.pos ≤ dist3 ray.org h'.pos)) := by
  induction l with
  | nil =>
    intro b db
    exact Or.inl ⟨rfl, by simp⟩
  | cons s rest ih =>
    intro b db
    rcases hs : s.intersect ray with _ | h₁
    · have hstep : hitStep ray (some (b, db)) s = some (b, db) := by
        simp [hitStep, hs]
      rcases ih b db with ⟨heq, hall⟩ |
        ⟨pre, s₂, post, h₀, hsplit, hhit, heq, hlt, hpre, hpost⟩
      · refine Or.inl ⟨?_, ?_⟩
        · rw [List.foldl_cons, hstep]; exact heq
        · intro s' hs' h' hh'
          rcases List.mem_cons.mp hs' with rfl | hmem
          · simp [hs] at hh'
          · exact hall s' hmem h' hh'
      · refine Or.inr ⟨s :: pre, s₂, post, h₀, by rw [hsplit]; rfl, hhit, ?_,
          hlt, ?_, hpost⟩
        · rw [List.foldl_cons, hstep]; exact heq
        · intro s' hs' h' hh'
          rcases List.mem_cons.mp hs' with rfl | hmem
          · simp [hs] at hh'
          · exact hpre s' hmem h' hh'
    · by_cases hd : dist3 ray.org h₁.pos < db
      · have hstep : hitStep ray (some (b, db)) s
            = some (h₁, dist3 ray.org h₁.pos) := by
          simp [hitStep, hs, hd]
        rcases ih h₁ (dist3 ray.org h₁.pos) with ⟨heq, hall⟩ |
          ⟨pre, s₂, post, h₀, hsplit, hhit, heq, hlt, hpre, hpost⟩
        · refine Or.inr ⟨[], s, rest, h₁, rfl, hs, ?_, hd, by simp, hall⟩
          rw [List.foldl_cons, hstep]; exact heq
        · refine Or.inr ⟨s :: pre, s₂, post, h₀, by rw [hsplit]; rfl, hhit, ?_,
            lt_trans hlt hd, ?_, hpost⟩
          · rw [List.foldl_cons, hstep]; exact heq
          · intro s' hs' h' hh'
            rcases List.mem_cons.mp hs' with rfl | hmem
            · rw [hs] at hh'
              injection hh' with hh'
              subst hh'
              exact hlt
            · exact hpre s' hmem h' hh'
      · have hstep : hitStep ray (some (b, db)) s = some (b, db) := by
          simp [hitStep, hs, hd]
        rcases ih b db with ⟨heq, hall⟩ |
          ⟨pre, s₂, post, h₀, hsplit, hhit, heq, hlt, hpre, hpost⟩
        · refine Or.inl ⟨?_, ?_⟩
          · rw [List.foldl_cons, hstep]; exact heq
          · intro s' hs' h' hh'
            rcases List.mem_cons.mp hs' with rfl | hmem
            · rw [hs] at hh'
              injection hh' with hh'
              subst hh'
              exact not_lt.mp hd
            · exact hall s' hmem h' hh'
        · refine Or.inr ⟨s :: pre, s₂, post, h₀, by rw [hsplit]; rfl, hhit, ?_,
            hlt, ?_, hpost⟩
          · rw [List.foldl_cons, hstep]; exact heq
          · intro s' hs' h' hh'
            rcases List.mem_cons.mp hs' with rfl | hmem
            · rw [hs] at hh'
              injection hh' with hh'
              subst hh'
              exact lt_of_lt_of_le hlt (not_lt.mp hd)
            · exact hpre s' hmem h' hh'

/-- Nearest-hit loop invariant from the initial empty best (`min_distance`
at infinity): either every object misses, or the loop returns the hit of
some object together with its distance, with every earlier hit strictly
farther (ties keep the earlier object) and no later hit strictly nearer. -/
theorem foldl_hitStep_from_none (ray : Ray) (l : List Sphere) :
    (List.foldl (hitStep ray) none l = none
      ∧ ∀ s' ∈ l, s'.intersect ray = none)
    ∨ (∃ pre s post h₀,
        l = pre ++ s :: post
        ∧ s.intersect ray = some h₀
        ∧ List.foldl (hitStep ray) none l = some (h₀, dist3 ray.org h₀.pos)
        ∧ (∀ s' ∈ pre, ∀ h', s'.intersect ray = some h' →
            dist3 ray.org h₀.pos < dist3 ray.org h'.pos)
        ∧ (∀ s' ∈ post, ∀ h', s'.intersect ray = some h' →
            dist3 ray.org h₀.pos ≤ dist3 ray.org h'.pos)) := by
  induction l with
  | nil => exact Or.inl ⟨rfl, by simp⟩
  | cons s rest ih =>
    rcases hs : s.intersect ray with _ | h₁
    · have hstep : hitStep ray none s = none := by simp [hitStep, hs]
      rcases ih with ⟨heq, hall⟩ |
        ⟨pre, s₂, post, h₀, hsplit, hhit, heq, hpre, hpost⟩
      · refine Or.inl ⟨?_, ?_⟩
        · rw [List.foldl_cons, hstep]; exact heq
        · intro s' hs'
          rcases List.mem_cons.mp hs' with rfl | hmem
          · exact hs
          · exact hall s' hmem
      · refine Or.inr ⟨s :: pre, s₂, post, h₀, by rw [hsplit]; rfl, hhit, ?_,
          ?_, hpost⟩
        · rw [List.foldl_cons, hstep]; exact heq
        · intro s' hs' h' hh'
          rcases List.mem_cons.mp hs' with rfl | hmem
          · simp [hs] at hh'
          · exact hpre s' hmem h' hh'
    · have hstep : hitStep ray none s = some (h₁, dist3 ray.org h₁.pos) := by
        simp [hitStep, hs]
      rcases foldl_hitStep_from_some ray rest h₁ (dist3 ray.org h₁.pos) with
        ⟨heq, hall⟩ | ⟨pre, s₂, post, h₀, hsplit, hhit, heq, hlt, hpre, hpost⟩
      · refine Or.inr ⟨[], s, rest, h₁, rfl, hs, ?_, by simp, hall⟩
        rw [List.foldl_cons, hstep]; exact heq
      · refine Or.inr ⟨s :: pre, s₂, post, h₀, by rw [hsplit]; rfl, hhit, ?_,
          ?_, hpost⟩
        · rw [List.foldl_cons, hstep]; exact heq
        · intro s' hs' h' hh'
          rcases List.mem_cons.mp hs' with rfl | hmem
          · rw [hs] at hh'
            injection hh' with hh'
            subst hh'
            exact hlt
          · exact hpre s' hmem h' hh'

/-- C5: nearest-hit resolution tests every object; a `none` result means every
object missed, and a returned hit comes from some object of the scene whose
hit distance (recomputed with the general `distance` function from the ray
origin) is strictly below every earlier object's hit distance and at most
every later object's — so exact ties keep the object earliest in scene
insertion order, because only a strictly smaller distance replaces the
current best. -/
theorem C5_nearest_hit_selection (scene : List Sphere) (ray : Ray) :
    (firstHit scene ray = none ↔ ∀ s ∈ scene, s.intersect ray = none)
    ∧ ∀ h, firstHit scene ray = some h →
        ∃ pre s post, scene = pre ++ s :: post
          ∧ s.intersect ray = some h
          ∧ (∀ s' ∈ pre, ∀ h', s'.intersect ray = some h' →
              dist3 ray.org h.pos < dist3 ray.org h'.pos)
          ∧ (∀ s' ∈ post, ∀ h', s'.intersect ray = some h' →
              dist3 ray.org h.pos ≤ dist3 ray.org h'.pos) := by
  rcases foldl_hitStep_from_none ray scene with ⟨heq, hall⟩ |
    ⟨pre, s, post, h₀, hsplit, hhit, heq, hpre, hpost⟩
  · refine ⟨⟨fun _ => hall, fun _ => ?_⟩, fun h hfh => ?_⟩
    · simp [firstHit, heq]
    · simp [firstHit, heq] at hfh
  · have hfh : firstHit scene ray = some h₀ := by simp [firstHit, heq]
    refine ⟨⟨fun hnone => ?_, fun hmiss => ?_⟩, fun h hfh' => ?_⟩
    · rw [hfh] at hnone
      simp at hnone
    · have hsmem : s ∈ scene := by
        rw [hsplit]
        exact List.mem_append_right _ (List.mem_cons_self s post)
      rw [hmiss s hsmem] at hhit
      simp at hhit
    · rw [hfh] at hfh'
      injection hfh' with hh
      subst hh
      exact ⟨pre, s, post, hsplit, hhit, hpre, hpost⟩

theorem dist_sixteen : dist3 axisRay.org ⟨0, 0, -16⟩ = 16 := by
  norm_num [dist3, sqr_distance, axisRay, Vec3.splat, Vec3.sqr_length,
    Vec3.dot, sqrt_twofiftysix]

/-- The tie-break scene: `axisRay` hits both `sphereA` and `sphereB` at the
identical distance 16; the loop keeps the hit of `sphereA`, the sphere
earliest in insertion order. -/
theorem firstHit_tie : firstHit [sphereA, sphereB] axisRay = some hitA := by
  simp only [firstHit, List.foldl_cons, List.foldl_nil, hitStep,
    sphereA_intersect, sphereB_intersect, hitA]
  rw [dist_sixteen]
  simp [dist_sixteen]

/-- Witness for C5 on the tie-break scene: the resolved hit is `sphereA`'s,
the earlier of the two equal-distance spheres. -/
theorem C5_nearest_hit_selection_witness :
    ∃ pre s post, [sphereA, sphereB] = pre ++ s :: post
      ∧ s.intersect axisRay = some hitA
      ∧ (∀ s' ∈ pre, ∀ h', s'.intersect axisRay = some h' →
          dist3 axisRay.org hitA.pos < dist3 axisRay.org h'.pos)
      ∧ (∀ s' ∈ post, ∀ h', s'.intersect axisRay = some h' →
          dist3 axisRay.org hitA.pos ≤ dist3 axisRay.org h'.pos) :=
  (C5_nearest_hit_selection [sphereA, sphereB] axisRay).2 hitA firstHit_tie

end

end RayTracer
